import Mathlib

/-!
Verification of the MSSQL tool server (`src/mcp/server/server.py`).

The server is a thin layer between an RPC framework and a SQL driver:
a table-name validator (`validate_table_name`) and five tool handlers
(`list_tables`, `preview_table`, `run_query`, `describe_table`,
`get_table_count`).  The driver (pyodbc) is an external collaborator;
we model it as an oracle (`Driver`) that says whether connecting
succeeds and what each executed statement produces.  Handlers are
translated statement by statement into total Lean functions that
return their result together with a `Trace` of the effects they
performed (connections opened/closed, statements submitted to the
driver, commits).
-/

namespace MCP

/-- A database value as seen through the driver: we need NULL, integers
and strings (enough to express the truthiness and conversion behaviour
the handlers rely on). -/
inductive Value where
  | null : Value
  | int : Int → Value
  | str : String → Value
deriving Repr, DecidableEq

/-- Python truthiness of a driver value: `None`, `0` and `""` are falsy. -/
def Value.truthy : Value → Bool
  | .null => false
  | .int n => n != 0
  | .str s => s != ""

/-- Python `str()` of a driver value. -/
def Value.pyStr : Value → String
  | .null => "None"
  | .int n => toString n
  | .str s => s

/-- Python `int()` of a driver value; fails (raises) on `None` and on
strings that do not parse as an integer. -/
def Value.pyInt : Value → Except String Int
  | .null => .error "int() argument must not be None"
  | .int n => .ok n
  | .str s =>
    match s.trim.toInt? with
    | some n => .ok n
    | none => .error ("invalid literal for int() with base 10: " ++ s)

/-- What the driver reports after `cursor.execute` succeeds:
the result-set description (column names; `none` when the statement
produced no result set), the outcome of `fetchall`/`fetchone`
(fetching can itself fail), and `cursor.rowcount`. -/
structure ExecOutcome where
  description : Option (List String)
  fetch : Except String (List (List Value))
  rowcount : Int
deriving Repr

/-- The external driver, as an oracle: whether `get_connection()`
succeeds, what each `(sql, params)` execution produces, and whether
`conn.commit()` succeeds.  Error strings stand for the `str(e)` of the
raised exception. -/
structure Driver where
  connect : Except String Unit
  exec : String → List Value → Except String ExecOutcome
  commit : Except String Unit

/-- Effects a handler invocation performed: connections opened and
closed, statements submitted to the driver (with their parameters),
and commits. -/
structure Trace where
  opened : Nat
  closed : Nat
  executed : List (String × List Value)
  commits : Nat
deriving Repr, DecidableEq

/-- Trace of an invocation that failed before acquiring a connection. -/
def emptyTrace : Trace := ⟨0, 0, [], 0⟩

/-- Trace of an invocation that opened its one connection, submitted one
statement, closed the connection, and committed `k` times. -/
def runTrace (sql : String) (ps : List Value) (k : Nat) : Trace :=
  ⟨1, 1, [(sql, ps)], k⟩

/-! ### The identifier validator

`validate_table_name` checks the input against the Python regex
`^[a-zA-Z0-9_]+(\.[a-zA-Z0-9_]+)?$` via `re.match` and, on success,
returns `"[" + name.replace(".", "].[") + "]"`.  Note the Python
semantics of `$`: it matches at the very end of the string **or just
before a newline at the very end of the string** (`pyFullMatch` below);
the strict both-anchors reading is `strictFullMatch`. -/

/-- The regex character class `[a-zA-Z0-9_]`. -/
def isWordChar (c : Char) : Bool :=
  (('a' ≤ c && c ≤ 'z') || ('A' ≤ c && c ≤ 'Z') || ('0' ≤ c && c ≤ '9') || c == '_')

/-- Does the list start with a `[a-zA-Z0-9_]` character? -/
def headIsWord : List Char → Bool
  | [] => false
  | c :: _ => isWordChar c

/-- Drop the maximal leading run of `[a-zA-Z0-9_]` characters. -/
def dropWord (l : List Char) : List Char := l.dropWhile isWordChar

/-- `^[a-zA-Z0-9_]+(\.[a-zA-Z0-9_]+)?$` with `^` and `$` read as the very
start and very end of the string: a nonempty word-character run, then
either the end or a dot followed by a nonempty word-character run
reaching the end. -/
def strictFullMatch (l : List Char) : Bool :=
  headIsWord l &&
    match dropWord l with
    | [] => true
    | c :: rest => c == '.' && headIsWord rest && (dropWord rest).isEmpty

/-- The same pattern matched the way Python `re.match` matches it:
`$` also matches just before a single newline at the end of the
string, so `body ++ "\n"` matches whenever `body` matches. -/
def pyFullMatch (l : List Char) : Bool :=
  strictFullMatch l || (l.getLast? == some '\n' && strictFullMatch l.dropLast)

/-- Python `name.replace(".", "].[")`: every `'.'` is replaced by the
three characters `].[`, all other characters are kept. -/
def replaceDot : List Char → List Char
  | [] => []
  | c :: rest => (if c == '.' then [']', '.', '['] else [c]) ++ replaceDot rest

/-- The quoted identifier `"[" + name.replace(".", "].[") + "]"`. -/
def quoteName (s : String) : String :=
  "[" ++ String.mk (replaceDot s.data) ++ "]"

/-- `validate_table_name` from `server.py`: reject anything not matching
the regex (raising `ValueError(f"Invalid table name: {name}")`, modelled
as `Except.error`), and quote what matches. -/
def validate_table_name (name : String) : Except String String :=
  if pyFullMatch name.data then .ok (quoteName name)
  else .error ("Invalid table name: " ++ name)

/-! ### Dot-splitting and bracket-splitting

`splitDot` is Python `str.split('.')`, used by `describe_table` to take
the unqualified table name.  `splitBrackets` splits a character list on
occurrences of the three-character quoting joiner `].[`; together with
stripping the outer brackets it recovers the segments of a quoted
identifier (used to state the round-trip property of the validator). -/

/-- Prepend a character to the first segment of a split result. -/
def consSeg (c : Char) : List (List Char) → List (List Char)
  | [] => [[c]]
  | seg :: segs => (c :: seg) :: segs

/-- Python `str.split('.')` on a character list. -/
def splitDot : List Char → List (List Char)
  | [] => [[]]
  | c :: rest => if c == '.' then [] :: splitDot rest else consSeg c (splitDot rest)

/-- Python `str.split('.')` on a string. -/
def pySplitDot (s : String) : List String := (splitDot s.data).map String.mk

/-- `table_name.split('.')[-1]`: the unqualified (last) dot-segment. -/
def lastSeg (s : String) : String := (pySplitDot s).getLastD ""

/-- Split a character list on occurrences of the quoting joiner `].[`. -/
def splitBrackets : List Char → List (List Char)
  | ']' :: '.' :: '[' :: rest => [] :: splitBrackets rest
  | [] => [[]]
  | c :: rest => consSeg c (splitBrackets rest)

/-- Undo the quoting of `validate_table_name`: strip the outer `[` and
`]`, then split on the `].[` joiner. -/
def unquoteSegs (q : String) : List String :=
  (splitBrackets ((q.data.drop 1).dropLast)).map String.mk

/-- Does `l` contain `pat` as a contiguous subsequence starting at the
front? -/
def leadMatch : List Char → List Char → Bool
  | [], _ => true
  | _ :: _, [] => false
  | p :: ps, c :: cs => p == c && leadMatch ps cs

/-- Does `l` contain `pat` as a contiguous subsequence anywhere? -/
def containsSeq (pat : List Char) : List Char → Bool
  | [] => leadMatch pat []
  | c :: cs => leadMatch pat (c :: cs) || containsSeq pat cs

/-! ### The tool handlers -/

/-- The statement executed by `list_tables`.  (The single quotes of the
SQL literal `'BASE TABLE'` are written via their code point.) -/
def listTablesSql : String :=
  "SELECT TABLE_NAME FROM INFORMATION_SCHEMA.TABLES WHERE TABLE_TYPE = "
    ++ String.mk [Char.ofNat 39] ++ "BASE TABLE" ++ String.mk [Char.ofNat 39]

/-- The comprehension `[row[0] for row in cursor.fetchall()]`: evaluated
left to right, raising IndexError at the first empty row. -/
def firstCells : List (List Value) → Except String (List Value)
  | [] => .ok []
  | row :: rest =>
    match row.head? with
    | none => .error "IndexError: tuple index out of range"
    | some v =>
      match firstCells rest with
      | .error e => .error e
      | .ok vs => .ok (v :: vs)

/-- `list_tables`: list base tables; any failure (connecting, executing,
fetching, or an empty row making `row[0]` raise) is caught and turned
into `{"tables": []}`. -/
def list_tables (d : Driver) : List Value × Trace :=
  match d.connect with
  | .error _ => ([], emptyTrace)
  | .ok _ =>
    match d.exec listTablesSql [] with
    | .error _ => ([], runTrace listTablesSql [] 0)
    | .ok o =>
      match o.fetch with
      | .error _ => ([], runTrace listTablesSql [] 0)
      | .ok rows =>
        match firstCells rows with
        | .error _ => ([], runTrace listTablesSql [] 0)
        | .ok vs => (vs, runTrace listTablesSql [] 0)

/-- The statement executed by `preview_table` for a validated name. -/
def previewSql (safe : String) : String := "SELECT TOP 100 * FROM " ++ safe

/-- `preview_table`: validate, run `SELECT TOP 100 *`, shape
`{columns, rows}`; every failure is caught and turned into
`{"columns": [], "rows": []}`.  `columns` comes from
`cursor.description` (empty when the description is `None` or empty). -/
def preview_table (d : Driver) (table_name : String) :
    (List String × List (List Value)) × Trace :=
  match validate_table_name table_name with
  | .error _ => (([], []), emptyTrace)
  | .ok safe =>
    match d.connect with
    | .error _ => (([], []), emptyTrace)
    | .ok _ =>
      match d.exec (previewSql safe) [] with
      | .error _ => (([], []), runTrace (previewSql safe) [] 0)
      | .ok o =>
        match o.fetch with
        | .error _ => (([], []), runTrace (previewSql safe) [] 0)
        | .ok rows => ((o.description.getD [], rows), runTrace (previewSql safe) [] 0)

/-- Result type of `run_query`: a `QueryResult`-shaped value, an
`ExecResult`-shaped value, or the `{"error": msg}` payload. -/
inductive RunQueryResult where
  | query (columns : List String) (rows : List (List Value))
  | exec (message : String) (affected_rows : Int)
  | error (msg : String)
deriving Repr, DecidableEq

/-- Python truthiness of `cursor.description`: truthy iff it is not
`None` and not empty. -/
def descTruthy : Option (List String) → Bool
  | none => false
  | some l => !l.isEmpty

/-- `run_query`: execute the caller's SQL verbatim; if the cursor
reports a (truthy) description, fetch and return a `QueryResult` with
no commit; otherwise commit and return an `ExecResult` carrying
`cursor.rowcount`.  Every failure is caught into `{"error": msg}`. -/
def run_query (d : Driver) (query : String) : RunQueryResult × Trace :=
  match d.connect with
  | .error e => (.error e, emptyTrace)
  | .ok _ =>
    match d.exec query [] with
    | .error e => (.error e, runTrace query [] 0)
    | .ok o =>
      if descTruthy o.description then
        match o.fetch with
        | .error e => (.error e, runTrace query [] 0)
        | .ok rows => (.query (o.description.getD []) rows, runTrace query [] 0)
      else
        match d.commit with
        | .error e => (.error e, runTrace query [] 0)
        | .ok _ => (.exec "Query executed successfully" o.rowcount, runTrace query [] 1)

/-- One entry of `describe_table`'s `columns` output. -/
structure ColumnInfo where
  name : String
  type : String
  nullable : Bool
  default : Option String
  max_length : Option Int
deriving Repr, DecidableEq

/-- The per-column shaping of `describe_table`
(`str(col[0]) if col[0] else ""`, …): indexing past the end of the row
raises (IndexError), falsy values are normalized, `nullable` is the
comparison of `str(col[2])` with `"YES"` guarded by truthiness, and
`int(col[4])` may itself raise. -/
def shapeColumn : List Value → Except String ColumnInfo
  | c0 :: c1 :: c2 :: c3 :: c4 :: _ =>
    match (if c4.truthy then (Value.pyInt c4).map some else Except.ok none) with
    | .error e => .error e
    | .ok ml =>
      .ok { name := if c0.truthy then c0.pyStr else ""
            type := if c1.truthy then c1.pyStr else ""
            nullable := if c2.truthy then c2.pyStr == "YES" else false
            default := if c3.truthy then some c3.pyStr else none
            max_length := ml }
  | _ => .error "IndexError: tuple index out of range"

/-- The comprehension `[{...} for col in columns]` of `describe_table`:
rows shaped left to right, the first exception propagating. -/
def shapeColumns : List (List Value) → Except String (List ColumnInfo)
  | [] => .ok []
  | col :: rest =>
    match shapeColumn col with
    | .error e => .error e
    | .ok info =>
      match shapeColumns rest with
      | .error e => .error e
      | .ok infos => .ok (info :: infos)

/-- The parameterized introspection statement of `describe_table`
(the Python triple-quoted literal, verbatim). -/
def describeSql : String :=
  "\n                SELECT \n                    COLUMN_NAME,\n                    DATA_TYPE,\n                    IS_NULLABLE,\n                    COLUMN_DEFAULT,\n                    CHARACTER_MAXIMUM_LENGTH\n                FROM INFORMATION_SCHEMA.COLUMNS \n                WHERE TABLE_NAME = ?\n                ORDER BY ORDINAL_POSITION\n            "

/-- Result type of `describe_table`. -/
inductive DescribeResult where
  | ok (table_name : String) (columns : List ColumnInfo)
  | error (msg : String)
deriving Repr, DecidableEq

/-- `describe_table`: validate (the quoted name is bound but unused, as
in the source), run the parameterized introspection query with the
unqualified table name as the sole parameter, and shape each returned
row; every failure is caught into `{"error": msg}`. -/
def describe_table (d : Driver) (table_name : String) : DescribeResult × Trace :=
  match validate_table_name table_name with
  | .error e => (.error e, emptyTrace)
  | .ok _safe =>
    match d.connect with
    | .error e => (.error e, emptyTrace)
    | .ok _ =>
      match d.exec describeSql [.str (lastSeg table_name)] with
      | .error e => (.error e, runTrace describeSql [.str (lastSeg table_name)] 0)
      | .ok o =>
        match o.fetch with
        | .error e => (.error e, runTrace describeSql [.str (lastSeg table_name)] 0)
        | .ok cols =>
          match shapeColumns cols with
          | .error e => (.error e, runTrace describeSql [.str (lastSeg table_name)] 0)
          | .ok infos => (.ok table_name infos, runTrace describeSql [.str (lastSeg table_name)] 0)

/-- The statement executed by `get_table_count` for a validated name. -/
def countSql (safe : String) : String := "SELECT COUNT(*) FROM " ++ safe

/-- Result type of `get_table_count`. -/
inductive CountResult where
  | ok (table_name : String) (row_count : Int)
  | error (msg : String)
deriving Repr, DecidableEq

/-- `get_table_count`: validate, run `SELECT COUNT(*)`, `fetchone`, and
compute `int(result[0]) if result and result[0] is not None else 0`
(`result` is falsy when `fetchone` returned no row or an empty row);
every failure is caught into `{"error": msg}`. -/
def get_table_count (d : Driver) (table_name : String) : CountResult × Trace :=
  match validate_table_name table_name with
  | .error e => (.error e, emptyTrace)
  | .ok safe =>
    match d.connect with
    | .error e => (.error e, emptyTrace)
    | .ok _ =>
      match d.exec (countSql safe) [] with
      | .error e => (.error e, runTrace (countSql safe) [] 0)
      | .ok o =>
        match o.fetch with
        | .error e => (.error e, runTrace (countSql safe) [] 0)
        | .ok rows =>
          match rows.head? with
          | none => (.ok table_name 0, runTrace (countSql safe) [] 0)
          | some [] => (.ok table_name 0, runTrace (countSql safe) [] 0)
          | some (Value.null :: _) => (.ok table_name 0, runTrace (countSql safe) [] 0)
          | some (v :: _) =>
            match v.pyInt with
            | .error e => (.error e, runTrace (countSql safe) [] 0)
            | .ok n => (.ok table_name n, runTrace (countSql safe) [] 0)

/-- A driver for which everything fails, used to instantiate theorems
at a concrete input. -/
def failDriver : Driver where
  connect := .error "connection refused"
  exec := fun _ _ => .error "execution failed"
  commit := .error "commit failed"

/-! ### Helper lemmas about the matcher and the splitters -/

theorem isWordChar_ne_dot {c : Char} (h : isWordChar c = true) : c ≠ '.' := by
  intro he; subst he; simp [isWordChar] at h

theorem isWordChar_ne_rbracket {c : Char} (h : isWordChar c = true) : c ≠ ']' := by
  intro he; subst he; simp [isWordChar] at h

theorem splitBrackets_cons_ne {c : Char} {rest : List Char} (h : c ≠ ']') :
    splitBrackets (c :: rest) = consSeg c (splitBrackets rest) := by
  rw [splitBrackets.eq_def]
  split
  · rename_i heq; injection heq with h1 _; exact absurd h1 h
  · rename_i heq; exact absurd heq (by simp)
  · rename_i heq; injection heq with h1 h2; rw [h1, h2]

theorem splitBrackets_word {w : List Char} (h : ∀ c ∈ w, c ≠ ']') :
    splitBrackets w = [w] := by
  induction w with
  | nil => rfl
  | cons c w ih =>
    rw [splitBrackets_cons_ne (h c (List.mem_cons_self c w))]
    rw [ih (fun x hx => h x (List.mem_cons_of_mem c hx))]
    rfl

theorem splitBrackets_sep {a : List Char} (b : List Char) (h : ∀ c ∈ a, c ≠ ']') :
    splitBrackets (a ++ ']' :: '.' :: '[' :: b) = a :: splitBrackets b := by
  induction a with
  | nil => rfl
  | cons c a ih =>
    rw [List.cons_append, splitBrackets_cons_ne (h c (List.mem_cons_self c a))]
    rw [ih (fun x hx => h x (List.mem_cons_of_mem c hx))]
    rfl

theorem splitDot_no_dot {w : List Char} (h : ∀ c ∈ w, c ≠ '.') :
    splitDot w = [w] := by
  induction w with
  | nil => rfl
  | cons c w ih =>
    have hc : (c == '.') = false := by
      simp only [beq_eq_false_iff_ne]; exact h c (List.mem_cons_self c w)
    rw [splitDot, hc]
    simp only [Bool.false_eq_true, if_false]
    rw [ih (fun x hx => h x (List.mem_cons_of_mem c hx))]
    rfl

theorem splitDot_sep {a : List Char} (b : List Char) (h : ∀ c ∈ a, c ≠ '.') :
    splitDot (a ++ '.' :: b) = a :: splitDot b := by
  induction a with
  | nil => simp [splitDot]
  | cons c a ih =>
    have hc : (c == '.') = false := by
      simp only [beq_eq_false_iff_ne]; exact h c (List.mem_cons_self c a)
    rw [List.cons_append, splitDot, hc]
    simp only [Bool.false_eq_true, if_false]
    rw [ih (fun x hx => h x (List.mem_cons_of_mem c hx))]
    rfl

theorem replaceDot_no_dot {w : List Char} (h : ∀ c ∈ w, c ≠ '.') :
    replaceDot w = w := by
  induction w with
  | nil => rfl
  | cons c w ih =>
    have hc : (c == '.') = false := by
      simp only [beq_eq_false_iff_ne]; exact h c (List.mem_cons_self c w)
    rw [replaceDot, hc]
    simp only [Bool.false_eq_true, if_false]
    rw [ih (fun x hx => h x (List.mem_cons_of_mem c hx))]
    rfl

theorem replaceDot_append (a b : List Char) :
    replaceDot (a ++ b) = replaceDot a ++ replaceDot b := by
  induction a with
  | nil => rfl
  | cons c a ih => rw [List.cons_append, replaceDot, replaceDot, ih, List.append_assoc]

theorem headIsWord_ne_nil {l : List Char} (h : headIsWord l = true) : l ≠ [] := by
  cases l with
  | nil => simp [headIsWord] at h
  | cons c t => simp

theorem takeWhile_ne_nil_of_headIsWord {l : List Char} (h : headIsWord l = true) :
    l.takeWhile isWordChar ≠ [] := by
  cases l with
  | nil => simp [headIsWord] at h
  | cons c t =>
    rw [headIsWord] at h
    simp [List.takeWhile_cons, h]

theorem all_word_of_dropWord_nil {w : List Char} (h : dropWord w = []) :
    ∀ c ∈ w, isWordChar c = true := by
  intro c hc
  have hw : w.takeWhile isWordChar ++ w.dropWhile isWordChar = w :=
    List.takeWhile_append_dropWhile _ _
  rw [dropWord] at h
  rw [h, List.append_nil] at hw
  exact List.mem_takeWhile_imp (hw ▸ hc)

/-- Structure of a strictly matching string: it is a single nonempty
word-character segment, or two such segments joined by a dot. -/
theorem strictFullMatch_cases {l : List Char} (h : strictFullMatch l = true) :
    (l ≠ [] ∧ ∀ c ∈ l, isWordChar c = true) ∨
    (∃ a b, l = a ++ '.' :: b ∧ a ≠ [] ∧ b ≠ [] ∧
      (∀ c ∈ a, isWordChar c = true) ∧ (∀ c ∈ b, isWordChar c = true)) := by
  unfold strictFullMatch at h
  rw [Bool.and_eq_true] at h
  obtain ⟨hh, hm⟩ := h
  have hsplit : l.takeWhile isWordChar ++ l.dropWhile isWordChar = l :=
    List.takeWhile_append_dropWhile _ _
  rcases hd : dropWord l with _ | ⟨c, rest⟩
  · left
    refine ⟨headIsWord_ne_nil hh, all_word_of_dropWord_nil hd⟩
  · right
    rw [hd] at hm
    simp only [Bool.and_eq_true, beq_iff_eq, List.isEmpty_iff] at hm
    obtain ⟨⟨hcdot, hhr⟩, hdr⟩ := hm
    subst hcdot
    refine ⟨l.takeWhile isWordChar, rest, ?_, ?_, ?_, ?_, ?_⟩
    · conv_lhs => rw [← hsplit]
      rw [dropWord] at hd
      rw [hd]
    · exact takeWhile_ne_nil_of_headIsWord hh
    · exact headIsWord_ne_nil hhr
    · intro x hx; exact List.mem_takeWhile_imp hx
    · exact all_word_of_dropWord_nil hdr

theorem chars_of_strict {l : List Char} (h : strictFullMatch l = true) :
    ∀ c ∈ l, isWordChar c = true ∨ c = '.' := by
  intro c hc
  rcases strictFullMatch_cases h with ⟨_, hw⟩ | ⟨a, b, hab, _, _, hwa, hwb⟩
  · exact Or.inl (hw c hc)
  · subst hab
    rcases List.mem_append.mp hc with hca | hcb
    · exact Or.inl (hwa c hca)
    · rcases List.mem_cons.mp hcb with rfl | hcb
      · exact Or.inr rfl
      · exact Or.inl (hwb c hcb)

theorem chars_of_py {l : List Char} (h : pyFullMatch l = true) :
    ∀ c ∈ l, isWordChar c = true ∨ c = '.' ∨ c = Char.ofNat 10 := by
  intro c hc
  unfold pyFullMatch at h
  rw [Bool.or_eq_true] at h
  rcases h with h | h
  · rcases chars_of_strict h c hc with hw | hd
    · exact Or.inl hw
    · exact Or.inr (Or.inl hd)
  · rw [Bool.and_eq_true, beq_iff_eq] at h
    obtain ⟨hlast, hstrict⟩ := h
    have hne : l ≠ [] := by
      intro he; rw [he] at hlast; simp at hlast
    have hdec : l.dropLast ++ [l.getLast hne] = l := List.dropLast_append_getLast hne
    have hlc : l.getLast hne = '\n' := by
      have := List.getLast?_eq_getLast l hne
      rw [hlast] at this
      exact (Option.some.injEq _ _).mp this.symm
    rw [← hdec] at hc
    rcases List.mem_append.mp hc with hcd | hcl
    · rcases chars_of_strict hstrict c hcd with hw | hd
      · exact Or.inl hw
      · exact Or.inr (Or.inl hd)
    · rcases List.mem_singleton.mp hcl with rfl
      rw [hlc]
      exact Or.inr (Or.inr rfl)

theorem mem_of_leadMatch {p : Char} {ps l : List Char}
    (h : leadMatch (p :: ps) l = true) : p ∈ l := by
  cases l with
  | nil => simp [leadMatch] at h
  | cons c cs =>
    rw [leadMatch, Bool.and_eq_true, beq_iff_eq] at h
    rw [h.1]
    exact List.mem_cons_self c cs

theorem mem_of_containsSeq {p : Char} {ps l : List Char}
    (h : containsSeq (p :: ps) l = true) : p ∈ l := by
  induction l with
  | nil => simp [containsSeq, leadMatch] at h
  | cons c cs ih =>
    rw [containsSeq, Bool.or_eq_true] at h
    rcases h with h | h
    · exact mem_of_leadMatch h
    · exact List.mem_cons_of_mem c (ih h)

/-- The characters the specification lists as forbidden in a table
reference: `;`, single quote, double quote, `[`, `]`, space. -/
def badChars : List Char := [';', Char.ofNat 39, Char.ofNat 34, '[', ']', ' ']

/-- The string contains one of the forbidden characters, or the
sequence `--`, or the sequence `/*`. -/
def ContainsForbidden (s : String) : Prop :=
  (∃ c ∈ badChars, c ∈ s.data) ∨
    containsSeq ['-', '-'] s.data = true ∨ containsSeq ['/', '*'] s.data = true

instance : DecidablePred ContainsForbidden := fun s => by
  unfold ContainsForbidden; infer_instance

theorem forbidden_not_match {s : String} (h : ContainsForbidden s) :
    pyFullMatch s.data = false := by
  rw [← Bool.not_eq_true]
  intro hm
  rcases h with ⟨c, hc, hmem⟩ | h | h
  · have hk := chars_of_py hm c hmem
    simp only [badChars, List.mem_cons, List.not_mem_nil, or_false] at hc
    rcases hc with rfl | rfl | rfl | rfl | rfl | rfl <;> exact absurd hk (by decide)
  · exact absurd (chars_of_py hm _ (mem_of_containsSeq h)) (by decide)
  · exact absurd (chars_of_py hm _ (mem_of_containsSeq h)) (by decide)

theorem quoteName_data (s : String) :
    (quoteName s).data = '[' :: (replaceDot s.data ++ [']']) := by
  show ("[" ++ String.mk (replaceDot s.data) ++ "]").data = _
  rw [String.data_append, String.data_append]
  rfl

/-! ### The claims -/

/-- C1 counterexample: the claim reads `^` and `$` as the very start and
very end of the string, so that a trailing newline makes validation
fail.  But Python's `re.match` lets `$` also match just before a
trailing newline: the string `"Users\n"` fails the strict pattern,
contains none of the forbidden characters or sequences, and is
nevertheless accepted by `validate_table_name`, which builds the quoted
fragment `"[Users\n]"` from it. -/
theorem validate_accepts_trailing_newline :
    strictFullMatch ("Users\n").data = false ∧
    ¬ ContainsForbidden "Users\n" ∧
    validate_table_name "Users\n" = .ok "[Users\n]" :=
  ⟨by decide, by decide, rfl⟩

/-- C1 (amended): for every string that contains one of the forbidden
characters or sequences, or fails the pattern under Python `re.match`
semantics (where `$` also matches just before one trailing newline),
`validate_table_name` fails with the `ValueError` message, and the
handlers that validate open no connection and submit no SQL at all:
the offending string never reaches the driver. -/
theorem invalid_name_rejected_before_driver (d : Driver) (s : String)
    (h : ContainsForbidden s ∨ pyFullMatch s.data = false) :
    validate_table_name s = .error ("Invalid table name: " ++ s) ∧
    (preview_table d s).2 = emptyTrace ∧
    (describe_table d s).2 = emptyTrace ∧
    (get_table_count d s).2 = emptyTrace := by
  have hf : pyFullMatch s.data = false := by
    rcases h with h | h
    · exact forbidden_not_match h
    · exact h
  have hv : validate_table_name s = .error ("Invalid table name: " ++ s) := by
    unfold validate_table_name
    rw [hf]
    rfl
  refine ⟨hv, ?_, ?_, ?_⟩
  · unfold preview_table; rw [hv]
  · unfold describe_table; rw [hv]
  · unfold get_table_count; rw [hv]

/-- C1 witness: the spec's own example input, instantiated at a concrete
driver. -/
theorem invalid_name_rejected_before_driver_witness :
    (ContainsForbidden "Users; DROP TABLE x" ∨
      pyFullMatch ("Users; DROP TABLE x").data = false) ∧
    (validate_table_name "Users; DROP TABLE x"
        = .error ("Invalid table name: " ++ "Users; DROP TABLE x") ∧
      (preview_table failDriver "Users; DROP TABLE x").2 = emptyTrace ∧
      (describe_table failDriver "Users; DROP TABLE x").2 = emptyTrace ∧
      (get_table_count failDriver "Users; DROP TABLE x").2 = emptyTrace) :=
  ⟨Or.inr (by decide),
   invalid_name_rejected_before_driver failDriver "Users; DROP TABLE x" (Or.inr (by decide))⟩

/-- C2: every string matching the strict pattern is accepted, each
dot-separated segment is individually bracketed, and splitting the
quoted output on its quoting boundaries (the outer brackets and the
bracket-dot-bracket joiner) reconstructs exactly the original
dot-separated segments. -/
theorem valid_name_quoted_roundtrip (s : String) (h : strictFullMatch s.data = true) :
    validate_table_name s = .ok (quoteName s) ∧
    unquoteSegs (quoteName s) = pySplitDot s := by
  have hpy : pyFullMatch s.data = true := by
    unfold pyFullMatch; rw [h]; rfl
  constructor
  · unfold validate_table_name; rw [hpy]; rfl
  · unfold unquoteSegs pySplitDot
    rw [quoteName_data]
    have hdrop : (('[' :: (replaceDot s.data ++ [']'])).drop 1).dropLast
        = replaceDot s.data := by
      rw [List.drop_one, List.tail_cons]
      exact List.dropLast_concat
    rw [hdrop]
    rcases strictFullMatch_cases h with ⟨hne, hw⟩ | ⟨a, b, hab, ha, hb, hwa, hwb⟩
    · have hnd : ∀ c ∈ s.data, c ≠ '.' := fun c hc => isWordChar_ne_dot (hw c hc)
      have hnr : ∀ c ∈ s.data, c ≠ ']' := fun c hc => isWordChar_ne_rbracket (hw c hc)
      rw [replaceDot_no_dot hnd, splitBrackets_word hnr, splitDot_no_dot hnd]
    · have hnda : ∀ c ∈ a, c ≠ '.' := fun c hc => isWordChar_ne_dot (hwa c hc)
      have hndb : ∀ c ∈ b, c ≠ '.' := fun c hc => isWordChar_ne_dot (hwb c hc)
      have hnra : ∀ c ∈ a, c ≠ ']' := fun c hc => isWordChar_ne_rbracket (hwa c hc)
      have hnrb : ∀ c ∈ b, c ≠ ']' := fun c hc => isWordChar_ne_rbracket (hwb c hc)
      rw [hab, replaceDot_append, replaceDot_no_dot hnda]
      rw [replaceDot]
      simp only [beq_self_eq_true, if_true]
      rw [replaceDot_no_dot hndb]
      rw [splitDot_sep b hnda, splitDot_no_dot hndb]
      have hsep : splitBrackets (a ++ [']', '.', '['] ++ b) = a :: splitBrackets b := by
        rw [List.append_assoc]
        exact splitBrackets_sep b hnra
      rw [← List.append_assoc, hsep, splitBrackets_word hnrb]

/-- C2 witness: the spec's example, `"dbo.Users"`, quoted as
`"[dbo].[Users]"` and split back into `["dbo", "Users"]`. -/
theorem valid_name_quoted_roundtrip_witness :
    strictFullMatch ("dbo.Users").data = true ∧
    (validate_table_name "dbo.Users" = .ok (quoteName "dbo.Users") ∧
      unquoteSegs (quoteName "dbo.Users") = pySplitDot "dbo.Users") ∧
    quoteName "dbo.Users" = "[dbo].[Users]" ∧
    pySplitDot "dbo.Users" = ["dbo", "Users"] :=
  ⟨by decide, valid_name_quoted_roundtrip "dbo.Users" (by decide), rfl, rfl⟩

/-- C7: every handler invocation closes exactly the connections it
opened before returning, on every exit path (the `with` block's scoped
exit runs on success and on exception alike); no invocation leaves its
connection open. -/
theorem handlers_release_connection (d : Driver) (t q : String) :
    (list_tables d).2.closed = (list_tables d).2.opened ∧
    (preview_table d t).2.closed = (preview_table d t).2.opened ∧
    (run_query d q).2.closed = (run_query d q).2.opened ∧
    (describe_table d t).2.closed = (describe_table d t).2.opened ∧
    (get_table_count d t).2.closed = (get_table_count d t).2.opened := by
  refine ⟨?_, ?_, ?_, ?_, ?_⟩
  · unfold list_tables
    repeat' split
    all_goals rfl
  · unfold preview_table
    repeat' split
    all_goals rfl
  · unfold run_query
    repeat' split
    all_goals rfl
  · unfold describe_table
    repeat' split
    all_goals rfl
  · unfold get_table_count
    repeat' split
    all_goals rfl

/-! ### Non-emptiness of the error messages the handlers can produce -/

theorem append_left_ne_empty {a : String} (s : String) (h : a ≠ "") : a ++ s ≠ "" := by
  intro he
  have h1 := congrArg String.length he
  rw [String.length_append] at h1
  have h0 : String.length "" = 0 := rfl
  rw [h0] at h1
  have h2 : a.length = 0 := by omega
  apply h
  cases a with
  | mk data =>
    have h3 : data.length = 0 := h2
    have hd : data = [] := List.length_eq_zero.mp h3
    rw [hd]

theorem pyInt_error_ne_empty {v : Value} {e : String} (h : v.pyInt = .error e) :
    e ≠ "" := by
  cases v with
  | null => injection h with he; subst he; decide
  | int n => exact absurd h (by simp [Value.pyInt])
  | str s =>
    rcases ht : s.trim.toInt? with _ | n
    · have he : ("invalid literal for int() with base 10: " ++ s) = e := by
        simp only [Value.pyInt, ht] at h
        injection h
      rw [← he]
      exact append_left_ne_empty s (by decide)
    · simp [Value.pyInt, ht] at h

theorem shapeColumn_error_ne_empty {col : List Value} {e : String}
    (h : shapeColumn col = .error e) : e ≠ "" := by
  rcases col with _ | ⟨c0, _ | ⟨c1, _ | ⟨c2, _ | ⟨c3, _ | ⟨c4, rest⟩⟩⟩⟩⟩
  · injection h with he; subst he; decide
  · injection h with he; subst he; decide
  · injection h with he; subst he; decide
  · injection h with he; subst he; decide
  · injection h with he; subst he; decide
  · by_cases ht : c4.truthy = true
    · rcases hp : c4.pyInt with ep | n
      · have hee : ep = e := by
          simp only [shapeColumn, ht, if_true, hp, Except.map] at h
          injection h
        exact hee ▸ pyInt_error_ne_empty hp
      · simp [shapeColumn, ht, hp, Except.map] at h
    · simp [shapeColumn, ht] at h

theorem shapeColumns_error_ne_empty {cols : List (List Value)} {e : String}
    (h : shapeColumns cols = .error e) : e ≠ "" := by
  induction cols with
  | nil => cases h
  | cons col rest ih =>
    rw [shapeColumns] at h
    rcases hs : shapeColumn col with e' | info
    · rw [hs] at h
      injection h with he
      subst he
      exact shapeColumn_error_ne_empty hs
    · rw [hs] at h
      rcases hr : shapeColumns rest with e' | infos
      · rw [hr] at h
        injection h with he
        subst he
        exact ih hr
      · rw [hr] at h
        cases h

theorem firstCells_error_ne_empty {rows : List (List Value)} {e : String}
    (h : firstCells rows = .error e) : e ≠ "" := by
  induction rows with
  | nil => cases h
  | cons row rest ih =>
    rw [firstCells] at h
    rcases hh : row.head? with _ | v
    · rw [hh] at h
      injection h with he
      subst he
      decide
    · rw [hh] at h
      rcases hr : firstCells rest with e' | vs
      · rw [hr] at h
        injection h with he
        subst he
        exact ih hr
      · rw [hr] at h
        cases h

/-- Driver oracles whose exception messages are non-empty — true of any
exception the pyodbc layer surfaces through `str(e)`. -/
def MsgsNonempty (d : Driver) : Prop :=
  (∀ e, d.connect = .error e → e ≠ "") ∧
  (∀ s p e, d.exec s p = .error e → e ≠ "") ∧
  (∀ s p o e, d.exec s p = .ok o → o.fetch = .error e → e ≠ "") ∧
  (∀ e, d.commit = .error e → e ≠ "")

theorem validate_table_name_error_form (t : String) {e : String}
    (h : validate_table_name t = .error e) :
    validate_table_name t = .error ("Invalid table name: " ++ t) := by
  unfold validate_table_name at h ⊢
  rcases hpm : pyFullMatch t.data with _ | _
  · rfl
  · simp [hpm] at h

/-- C3: no handler lets a failure propagate past its boundary.  Unless
the full success path ran, `list_tables` returns `{tables: []}` and
`preview_table` returns `{columns: [], rows: []}`; `run_query`,
`describe_table` and `get_table_count` return either their success
shape or `{error: m}` with `m` non-empty (assuming the driver's own
exception messages are non-empty). -/
theorem handlers_catch_all_failures (d : Driver) (h : MsgsNonempty d) (t q : String) :
    ((list_tables d).1 = [] ∨
      ∃ o rows vs, d.connect = .ok () ∧ d.exec listTablesSql [] = .ok o ∧
        o.fetch = .ok rows ∧ firstCells rows = .ok vs ∧ (list_tables d).1 = vs) ∧
    ((preview_table d t).1 = ([], []) ∨
      ∃ safe o rows, validate_table_name t = .ok safe ∧ d.connect = .ok () ∧
        d.exec (previewSql safe) [] = .ok o ∧ o.fetch = .ok rows ∧
        (preview_table d t).1 = (o.description.getD [], rows)) ∧
    ((∃ c r, (run_query d q).1 = .query c r) ∨
      (∃ n, (run_query d q).1 = .exec "Query executed successfully" n) ∨
      (∃ m, (run_query d q).1 = .error m ∧ m ≠ "")) ∧
    ((∃ cols, (describe_table d t).1 = .ok t cols) ∨
      (∃ m, (describe_table d t).1 = .error m ∧ m ≠ "")) ∧
    ((∃ n, (get_table_count d t).1 = .ok t n) ∨
      (∃ m, (get_table_count d t).1 = .error m ∧ m ≠ "")) := by
  obtain ⟨hmc, hme, hmf, hmcm⟩ := h
  refine ⟨?_, ?_, ?_, ?_, ?_⟩
  · -- list_tables
    rcases hc : d.connect with e | u
    · left; simp [list_tables, hc]
    · cases u
      rcases he : d.exec listTablesSql [] with e | o
      · left; simp [list_tables, hc, he]
      · rcases hf : o.fetch with e | rows
        · left; simp [list_tables, hc, he, hf]
        · rcases hfc : firstCells rows with e | vs
          · left; simp [list_tables, hc, he, hf, hfc]
          · right
            exact ⟨o, rows, vs, rfl, rfl, hf, hfc, by simp [list_tables, hc, he, hf, hfc]⟩
  · -- preview_table
    rcases hv : validate_table_name t with e | safe
    · left; simp [preview_table, hv]
    · rcases hc : d.connect with e | u
      · left; simp [preview_table, hv, hc]
      · cases u
        rcases he : d.exec (previewSql safe) [] with e | o
        · left; simp [preview_table, hv, hc, he]
        · rcases hf : o.fetch with e | rows
          · left; simp [preview_table, hv, hc, he, hf]
          · right
            exact ⟨safe, o, rows, rfl, rfl, he, hf, by simp [preview_table, hv, hc, he, hf]⟩
  · -- run_query
    rcases hc : d.connect with e | u
    · right; right
      exact ⟨e, by simp [run_query, hc], hmc e hc⟩
    · cases u
      rcases he : d.exec q [] with e | o
      · right; right
        exact ⟨e, by simp [run_query, hc, he], hme q [] e he⟩
      · rcases hd : descTruthy o.description with _ | _
        · rcases hcm : d.commit with e | u2
          · right; right
            exact ⟨e, by simp [run_query, hc, he, hd, hcm], hmcm e hcm⟩
          · cases u2
            right; left
            exact ⟨o.rowcount, by simp [run_query, hc, he, hd, hcm]⟩
        · rcases hf : o.fetch with e | rows
          · right; right
            exact ⟨e, by simp [run_query, hc, he, hd, hf], hmf q [] o e he hf⟩
          · left
            exact ⟨o.description.getD [], rows, by simp [run_query, hc, he, hd, hf]⟩
  · -- describe_table
    rcases hv : validate_table_name t with e | safe
    · right
      refine ⟨"Invalid table name: " ++ t, ?_, append_left_ne_empty t (by decide)⟩
      have hv2 := validate_table_name_error_form t hv
      simp [describe_table, hv2]
    · rcases hc : d.connect with e | u
      · right
        exact ⟨e, by simp [describe_table, hv, hc], hmc e hc⟩
      · cases u
        rcases he : d.exec describeSql [Value.str (lastSeg t)] with e | o
        · right
          exact ⟨e, by simp [describe_table, hv, hc, he], hme _ _ e he⟩
        · rcases hf : o.fetch with e | cols
          · right
            exact ⟨e, by simp [describe_table, hv, hc, he, hf], hmf _ _ o e he hf⟩
          · rcases hs : shapeColumns cols with e | infos
            · right
              exact ⟨e, by simp [describe_table, hv, hc, he, hf, hs],
                shapeColumns_error_ne_empty hs⟩
            · left
              exact ⟨infos, by simp [describe_table, hv, hc, he, hf, hs]⟩
  · -- get_table_count
    rcases hv : validate_table_name t with e | safe
    · right
      refine ⟨"Invalid table name: " ++ t, ?_, append_left_ne_empty t (by decide)⟩
      have hv2 := validate_table_name_error_form t hv
      simp [get_table_count, hv2]
    · rcases hc : d.connect with e | u
      · right
        exact ⟨e, by simp [get_table_count, hv, hc], hmc e hc⟩
      · cases u
        rcases he : d.exec (countSql safe) [] with e | o
        · right
          exact ⟨e, by simp [get_table_count, hv, hc, he], hme _ _ e he⟩
        · rcases hf : o.fetch with e | rows
          · right
            exact ⟨e, by simp [get_table_count, hv, hc, he, hf], hmf _ _ o e he hf⟩
          · rcases rows with _ | ⟨r, rest⟩
            · left
              exact ⟨0, by simp [get_table_count, hv, hc, he, hf]⟩
            · rcases r with _ | ⟨v, vr⟩
              · left
                exact ⟨0, by simp [get_table_count, hv, hc, he, hf]⟩
              · rcases v with _ | n | s3
                · left
                  exact ⟨0, by simp [get_table_count, hv, hc, he, hf]⟩
                · left
                  exact ⟨n, by simp [get_table_count, hv, hc, he, hf, Value.pyInt]⟩
                · rcases hpi : (Value.str s3).pyInt with e | n
                  · right
                    exact ⟨e, by simp [get_table_count, hv, hc, he, hf, hpi],
                      pyInt_error_ne_empty hpi⟩
                  · left
                    exact ⟨n, by simp [get_table_count, hv, hc, he, hf, hpi]⟩

/-- C3 witness: instantiated at the always-failing driver, where every
handler takes its failure path. -/
theorem handlers_catch_all_failures_witness :
    MsgsNonempty failDriver ∧
    (((list_tables failDriver).1 = [] ∨
      ∃ o rows vs, failDriver.connect = .ok () ∧ failDriver.exec listTablesSql [] = .ok o ∧
        o.fetch = .ok rows ∧ firstCells rows = .ok vs ∧ (list_tables failDriver).1 = vs) ∧
    ((preview_table failDriver "t").1 = ([], []) ∨
      ∃ safe o rows, validate_table_name "t" = .ok safe ∧ failDriver.connect = .ok () ∧
        failDriver.exec (previewSql safe) [] = .ok o ∧ o.fetch = .ok rows ∧
        (preview_table failDriver "t").1 = (o.description.getD [], rows)) ∧
    ((∃ c r, (run_query failDriver "SELECT 1").1 = .query c r) ∨
      (∃ n, (run_query failDriver "SELECT 1").1 = .exec "Query executed successfully" n) ∨
      (∃ m, (run_query failDriver "SELECT 1").1 = .error m ∧ m ≠ "")) ∧
    ((∃ cols, (describe_table failDriver "t").1 = .ok "t" cols) ∨
      (∃ m, (describe_table failDriver "t").1 = .error m ∧ m ≠ "")) ∧
    ((∃ n, (get_table_count failDriver "t").1 = .ok "t" n) ∨
      (∃ m, (get_table_count failDriver "t").1 = .error m ∧ m ≠ ""))) := by
  have hm : MsgsNonempty failDriver := by
    refine ⟨?_, ?_, ?_, ?_⟩
    · intro e he
      simp only [failDriver] at he
      injection he with h1
      subst h1
      decide
    · intro s p e he
      simp only [failDriver] at he
      injection he with h1
      subst h1
      decide
    · intro s p o e ho hf
      simp [failDriver] at ho
    · intro e he
      simp only [failDriver] at he
      injection he with h1
      subst h1
      decide
  exact ⟨hm, handlers_catch_all_failures failDriver hm "t" "SELECT 1"⟩

/-- A driver whose every execution yields a one-column result set with
the single row `[1]`. -/
def oneRowOutcome : ExecOutcome := ⟨some ["c"], .ok [[.int 1]], -1⟩

/-- A driver that connects and always produces `oneRowOutcome`. -/
def selectDriver : Driver where
  connect := .ok ()
  exec := fun _ _ => .ok oneRowOutcome
  commit := .ok ()

/-- A driver that connects and always produces an empty result set with
one column `"id"`. -/
def emptyTableDriver : Driver where
  connect := .ok ()
  exec := fun _ _ => .ok ⟨some ["id"], .ok [], 0⟩
  commit := .ok ()

/-- C4: after a successful execution, `run_query` branches solely on the
driver-reported result-set description (for any SQL text `q`): with a
(truthy) description it returns the `QueryResult` shape built from the
driver's columns and rows and performs no commit; without one it
commits once and returns the `ExecResult` shape whose `affected_rows`
is the driver-reported `rowcount`. -/
theorem run_query_branches_on_description (d : Driver) (q : String) (o : ExecOutcome)
    (hc : d.connect = .ok ()) (he : d.exec q [] = .ok o) :
    (∀ rows, descTruthy o.description = true → o.fetch = .ok rows →
      (run_query d q).1 = .query (o.description.getD []) rows ∧
      (run_query d q).2.commits = 0) ∧
    (descTruthy o.description = false → d.commit = .ok () →
      (run_query d q).1 = .exec "Query executed successfully" o.rowcount ∧
      (run_query d q).2.commits = 1) := by
  constructor
  · intro rows hd hf
    constructor <;> simp [run_query, hc, he, hd, hf, runTrace]
  · intro hd hcm
    constructor <;> simp [run_query, hc, he, hd, hcm, runTrace]

/-- C4 witness: a `SELECT 1`-like execution against a concrete driver. -/
theorem run_query_branches_on_description_witness :
    selectDriver.connect = .ok () ∧
    selectDriver.exec "SELECT 1" [] = .ok oneRowOutcome ∧
    ((∀ rows, descTruthy oneRowOutcome.description = true →
        oneRowOutcome.fetch = .ok rows →
        (run_query selectDriver "SELECT 1").1
            = .query (oneRowOutcome.description.getD []) rows ∧
        (run_query selectDriver "SELECT 1").2.commits = 0) ∧
      (descTruthy oneRowOutcome.description = false → selectDriver.commit = .ok () →
        (run_query selectDriver "SELECT 1").1
            = .exec "Query executed successfully" oneRowOutcome.rowcount ∧
        (run_query selectDriver "SELECT 1").2.commits = 1)) :=
  ⟨rfl, rfl, run_query_branches_on_description selectDriver "SELECT 1" oneRowOutcome rfl rfl⟩

/-- C5: the 100-row cap of `preview_table` is built into the statement
it submits (every submitted statement is `SELECT TOP 100 * FROM` the
validated name), so as long as the engine honours `TOP 100` on those
statements the handler returns at most 100 rows; and for a table with
no rows it returns empty `rows` with the columns still taken from the
result-set metadata. -/
theorem preview_table_row_cap (d : Driver) (t : String)
    (hTop : ∀ safe p o rows, d.exec (previewSql safe) p = .ok o →
      o.fetch = .ok rows → rows.length ≤ 100) :
    (preview_table d t).1.2.length ≤ 100 ∧
    (∀ x ∈ (preview_table d t).2.executed, ∃ safe,
      validate_table_name t = .ok safe ∧ x = (previewSql safe, [])) ∧
    (∀ safe o cols, validate_table_name t = .ok safe → d.connect = .ok () →
      d.exec (previewSql safe) [] = .ok o → o.fetch = .ok [] →
      o.description = some cols → (preview_table d t).1 = (cols, [])) := by
  refine ⟨?_, ?_, ?_⟩
  · rcases hv : validate_table_name t with e | safe
    · simp [preview_table, hv]
    · rcases hc : d.connect with e | u
      · simp [preview_table, hv, hc]
      · cases u
        rcases he : d.exec (previewSql safe) [] with e | o
        · simp [preview_table, hv, hc, he]
        · rcases hf : o.fetch with e | rows
          · simp [preview_table, hv, hc, he, hf]
          · have hlen := hTop safe [] o rows he hf
            simp [preview_table, hv, hc, he, hf]
            exact hlen
  · rcases hv : validate_table_name t with e | safe
    · simp [preview_table, hv, emptyTrace]
    · rcases hc : d.connect with e | u
      · simp [preview_table, hv, hc, emptyTrace]
      · cases u
        rcases he : d.exec (previewSql safe) [] with e | o
        · intro x hx
          simp [preview_table, hv, hc, he, runTrace] at hx
          exact ⟨safe, rfl, hx⟩
        · rcases hf : o.fetch with e | rows
          · intro x hx
            simp [preview_table, hv, hc, he, hf, runTrace] at hx
            exact ⟨safe, rfl, hx⟩
          · intro x hx
            simp [preview_table, hv, hc, he, hf, runTrace] at hx
            exact ⟨safe, rfl, hx⟩
  · intro safe o cols hv hc he hf hdesc
    simp [preview_table, hv, hc, he, hf, hdesc]

/-- C5 witness: a concrete driver returning an empty result set, which
trivially honours the cap. -/
theorem preview_table_row_cap_witness :
    (∀ safe p o rows, emptyTableDriver.exec (previewSql safe) p = .ok o →
      o.fetch = .ok rows → rows.length ≤ 100) ∧
    ((preview_table emptyTableDriver "dbo.Users").1.2.length ≤ 100 ∧
      (∀ x ∈ (preview_table emptyTableDriver "dbo.Users").2.executed, ∃ safe,
        validate_table_name "dbo.Users" = .ok safe ∧ x = (previewSql safe, [])) ∧
      (∀ safe o cols, validate_table_name "dbo.Users" = .ok safe →
        emptyTableDriver.connect = .ok () →
        emptyTableDriver.exec (previewSql safe) [] = .ok o → o.fetch = .ok [] →
        o.description = some cols →
        (preview_table emptyTableDriver "dbo.Users").1 = (cols, []))) := by
  have hTop : ∀ safe p o rows, emptyTableDriver.exec (previewSql safe) p = .ok o →
      o.fetch = .ok rows → rows.length ≤ 100 := by
    intro safe p o rows ho hf
    simp only [emptyTableDriver] at ho
    injection ho with h1
    subst h1
    simp only [] at hf
    injection hf with h2
    subst h2
    decide
  exact ⟨hTop, preview_table_row_cap emptyTableDriver "dbo.Users" hTop⟩

set_option maxRecDepth 8192 in
/-- C6: `describe_table` on a validated reference submits exactly one
statement: the parameterized introspection query (filtering on
`TABLE_NAME = ?`, ordered by `ORDINAL_POSITION`) with the unqualified
(last dot-segment) table name as its sole parameter; and a
valid-but-nonexistent table (no rows returned) yields
`{table_name, columns: []}`, not a fault. -/
theorem describe_table_parameterized_query (d : Driver) (t safe : String) (o : ExecOutcome)
    (hv : validate_table_name t = .ok safe) (hc : d.connect = .ok ())
    (he : d.exec describeSql [Value.str (lastSeg t)] = .ok o) :
    (describe_table d t).2.executed = [(describeSql, [Value.str (lastSeg t)])] ∧
    containsSeq ("WHERE TABLE_NAME = ?").data describeSql.data = true ∧
    containsSeq ("ORDER BY ORDINAL_POSITION").data describeSql.data = true ∧
    (o.fetch = .ok [] → (describe_table d t).1 = .ok t []) := by
  refine ⟨?_, by decide, by decide, ?_⟩
  · rcases hf : o.fetch with e | cols
    · simp [describe_table, hv, hc, he, hf, runTrace]
    · rcases hs : shapeColumns cols with e | infos
      · simp [describe_table, hv, hc, he, hf, hs, runTrace]
      · simp [describe_table, hv, hc, he, hf, hs, runTrace]
  · intro hf
    simp [describe_table, hv, hc, he, hf, shapeColumns]

/-- C6 witness: `"dbo.Users"` against a driver reporting an empty
introspection result (nonexistent table). -/
theorem describe_table_parameterized_query_witness :
    validate_table_name "dbo.Users" = .ok "[dbo].[Users]" ∧
    emptyTableDriver.connect = .ok () ∧
    emptyTableDriver.exec describeSql [Value.str (lastSeg "dbo.Users")]
        = .ok ⟨some ["id"], .ok [], 0⟩ ∧
    ((describe_table emptyTableDriver "dbo.Users").2.executed
        = [(describeSql, [Value.str (lastSeg "dbo.Users")])] ∧
      containsSeq ("WHERE TABLE_NAME = ?").data describeSql.data = true ∧
      containsSeq ("ORDER BY ORDINAL_POSITION").data describeSql.data = true ∧
      ((⟨some ["id"], .ok [], 0⟩ : ExecOutcome).fetch = .ok [] →
        (describe_table emptyTableDriver "dbo.Users").1 = .ok "dbo.Users" [])) :=
  ⟨rfl, rfl, rfl,
    describe_table_parameterized_query emptyTableDriver "dbo.Users" "[dbo].[Users]"
      ⟨some ["id"], .ok [], 0⟩ rfl rfl rfl⟩

/-- Driver contract for result sets (what any real DB-API driver
guarantees): every fetched row has exactly the declared column count,
and fetching from a statement that produced no result set raises. -/
def ResultSetConsistent (d : Driver) : Prop :=
  ∀ s p o, d.exec s p = .ok o →
    ((∀ cols, o.description = some cols → ∀ rows, o.fetch = .ok rows →
        ∀ r ∈ rows, r.length = cols.length) ∧
      (o.description = none → ∀ rows, o.fetch ≠ .ok rows))

/-- C8: every `QueryResult`-shaped value produced by `preview_table` or
by `run_query`-s result-set branch has rows whose length equals the
number of columns, for any driver satisfying the result-set contract. -/
theorem query_rows_match_columns (d : Driver) (h : ResultSetConsistent d) (t q : String) :
    (∀ cols rows, (preview_table d t).1 = (cols, rows) →
      ∀ r ∈ rows, r.length = cols.length) ∧
    (∀ cols rows, (run_query d q).1 = .query cols rows →
      ∀ r ∈ rows, r.length = cols.length) := by
  constructor
  · intro cols rows hres
    rcases hv : validate_table_name t with e | safe
    · simp [preview_table, hv] at hres
      obtain ⟨rfl, rfl⟩ := hres
      simp
    · rcases hc : d.connect with e | u
      · simp [preview_table, hv, hc] at hres
        obtain ⟨rfl, rfl⟩ := hres
        simp
      · cases u
        rcases he : d.exec (previewSql safe) [] with e | o
        · simp [preview_table, hv, hc, he] at hres
          obtain ⟨rfl, rfl⟩ := hres
          simp
        · rcases hf : o.fetch with e | rows0
          · simp [preview_table, hv, hc, he, hf] at hres
            obtain ⟨rfl, rfl⟩ := hres
            simp
          · simp [preview_table, hv, hc, he, hf] at hres
            obtain ⟨rfl, rfl⟩ := hres
            rcases hde : o.description with _ | cs
            · exact absurd hf ((h _ _ o he).2 hde rows0)
            · intro r hr
              have hlen := (h _ _ o he).1 cs hde rows0 hf r hr
              simpa using hlen
  · intro cols rows hres
    rcases hc : d.connect with e | u
    · simp [run_query, hc] at hres
    · cases u
      rcases he : d.exec q [] with e | o
      · simp [run_query, hc, he] at hres
      · rcases hd : descTruthy o.description with _ | _
        · rcases hcm : d.commit with e | u2
          · simp [run_query, hc, he, hd, hcm] at hres
          · cases u2
            simp [run_query, hc, he, hd, hcm] at hres
        · rcases hf : o.fetch with e | rows0
          · simp [run_query, hc, he, hd, hf] at hres
          · simp [run_query, hc, he, hd, hf] at hres
            obtain ⟨rfl, rfl⟩ := hres
            rcases hde : o.description with _ | cs
            · rw [hde] at hd
              simp [descTruthy] at hd
            · intro r hr
              have hlen := (h _ _ o he).1 cs hde rows0 hf r hr
              simpa using hlen

/-- C8 witness: a concrete consistent driver (empty result set with one
declared column). -/
theorem query_rows_match_columns_witness :
    ResultSetConsistent emptyTableDriver ∧
    ((∀ cols rows, (preview_table emptyTableDriver "dbo.Users").1 = (cols, rows) →
      ∀ r ∈ rows, r.length = cols.length) ∧
    (∀ cols rows, (run_query emptyTableDriver "SELECT 1").1 = .query cols rows →
      ∀ r ∈ rows, r.length = cols.length)) := by
  have hcons : ResultSetConsistent emptyTableDriver := by
    intro s p o ho
    simp only [emptyTableDriver] at ho
    injection ho with h1
    subst h1
    constructor
    · intro cols hcols rows hrows r hr
      simp only [] at hcols hrows
      injection hrows with h2
      subst h2
      cases hr
    · intro hnone
      simp at hnone
  exact ⟨hcons, query_rows_match_columns emptyTableDriver hcons "dbo.Users" "SELECT 1"⟩

/-- C9: `get_table_count` on a validated reference: a fetch that
produced no row at all, or whose first row starts with NULL, yields
`row_count = 0` rather than an error; a non-NULL first value yields its
(successful) integer conversion. -/
theorem get_table_count_null_handling (d : Driver) (t safe : String) (o : ExecOutcome)
    (hv : validate_table_name t = .ok safe) (hc : d.connect = .ok ())
    (he : d.exec (countSql safe) [] = .ok o) (rows : List (List Value))
    (hf : o.fetch = .ok rows) :
    (rows.head? = none → (get_table_count d t).1 = .ok t 0) ∧
    (∀ r rest, rows = r :: rest → r.head? = some Value.null →
      (get_table_count d t).1 = .ok t 0) ∧
    (∀ v vr rest n, rows = (v :: vr) :: rest → v ≠ Value.null → v.pyInt = .ok n →
      (get_table_count d t).1 = .ok t n) := by
  refine ⟨?_, ?_, ?_⟩
  · intro hh
    have hrows : rows = [] := by
      cases rows with
      | nil => rfl
      | cons a l => simp at hh
    subst hrows
    simp [get_table_count, hv, hc, he, hf]
  · intro r rest hr hrh
    subst hr
    rcases r with _ | ⟨v, vr⟩
    · simp at hrh
    · simp only [List.head?_cons, Option.some.injEq] at hrh
      subst hrh
      simp [get_table_count, hv, hc, he, hf]
  · intro v vr rest n hr hv0 hpi
    subst hr
    rcases v with _ | m | s3
    · exact absurd rfl hv0
    · injection hpi with hmn
      subst hmn
      simp [get_table_count, hv, hc, he, hf, Value.pyInt]
    · simp [get_table_count, hv, hc, he, hf, hpi]

/-- C9 witness: a driver whose COUNT query returns the single row
`[1]`. -/
theorem get_table_count_null_handling_witness :
    validate_table_name "t" = .ok "[t]" ∧
    selectDriver.connect = .ok () ∧
    selectDriver.exec (countSql "[t]") [] = .ok oneRowOutcome ∧
    oneRowOutcome.fetch = .ok [[Value.int 1]] ∧
    (([[Value.int 1]] : List (List Value)).head? = none →
      (get_table_count selectDriver "t").1 = .ok "t" 0) ∧
    (∀ r rest, ([[Value.int 1]] : List (List Value)) = r :: rest →
      r.head? = some Value.null → (get_table_count selectDriver "t").1 = .ok "t" 0) ∧
    (∀ v vr rest n, ([[Value.int 1]] : List (List Value)) = (v :: vr) :: rest →
      v ≠ Value.null → v.pyInt = .ok n →
      (get_table_count selectDriver "t").1 = .ok "t" n) := by
  have hmain := get_table_count_null_handling selectDriver "t" "[t]" oneRowOutcome
    rfl rfl rfl [[Value.int 1]] rfl
  exact ⟨rfl, rfl, rfl, rfl, hmain.1, hmain.2.1, hmain.2.2⟩

/-- C10: the per-column shaping of `describe_table` normalizes falsy
driver metadata: a falsy `COLUMN_NAME` or `DATA_TYPE` becomes the empty
string, a falsy `COLUMN_DEFAULT` becomes `default = none` (a truthy one
its `str()`), a falsy `CHARACTER_MAXIMUM_LENGTH` becomes
`max_length = none`, and `nullable` holds exactly when `IS_NULLABLE` is
truthy and its `str()` equals `"YES"`. -/
theorem describe_column_normalization (v0 v1 v2 v3 v4 : Value) (info : ColumnInfo)
    (h : shapeColumn [v0, v1, v2, v3, v4] = .ok info) :
    (v0.truthy = false → info.name = "") ∧
    (v1.truthy = false → info.type = "") ∧
    info.nullable = (v2.truthy && (v2.pyStr == "YES")) ∧
    (v3.truthy = false → info.default = none) ∧
    (v3.truthy = true → info.default = some v3.pyStr) ∧
    (v4.truthy = false → info.max_length = none) := by
  by_cases ht : v4.truthy = true
  · rcases hp : v4.pyInt with e | m
    · simp [shapeColumn, ht, hp, Except.map] at h
    · simp only [shapeColumn, ht, if_true, hp, Except.map, Except.ok.injEq] at h
      subst h
      refine ⟨?_, ?_, ?_, ?_, ?_, ?_⟩
      · intro hx; simp [hx]
      · intro hx; simp [hx]
      · rcases h2 : v2.truthy with _ | _ <;> simp [h2]
      · intro hx; simp [hx]
      · intro hx; simp [hx]
      · intro hx
        rw [hx] at ht
        simp at ht
  · have ht2 : v4.truthy = false := by
      rcases h4 : v4.truthy with _ | _
      · rfl
      · exact absurd h4 ht
    simp only [shapeColumn, ht2, Bool.false_eq_true, if_false, Except.ok.injEq] at h
    subst h
    refine ⟨?_, ?_, ?_, ?_, ?_, ?_⟩
    · intro hx; simp [hx]
    · intro hx; simp [hx]
    · rcases h2 : v2.truthy with _ | _ <;> simp [h2]
    · intro hx; simp [hx]
    · intro hx; simp [hx]
    · intro hx; rfl

/-- C10 witness: an all-falsy metadata row is fully normalized. -/
theorem describe_column_normalization_witness :
    shapeColumn [Value.str "", Value.int 0, Value.null, Value.str "", Value.int 0]
      = .ok ⟨"", "", false, none, none⟩ ∧
    (((Value.str "").truthy = false → ColumnInfo.name ⟨"", "", false, none, none⟩ = "") ∧
      ((Value.int 0).truthy = false → ColumnInfo.type ⟨"", "", false, none, none⟩ = "") ∧
      ColumnInfo.nullable ⟨"", "", false, none, none⟩
        = (Value.null.truthy && (Value.null.pyStr == "YES")) ∧
      ((Value.str "").truthy = false → ColumnInfo.default ⟨"", "", false, none, none⟩ = none) ∧
      ((Value.str "").truthy = true →
        ColumnInfo.default ⟨"", "", false, none, none⟩ = some (Value.str "").pyStr) ∧
      ((Value.int 0).truthy = false → ColumnInfo.max_length ⟨"", "", false, none, none⟩ = none)) :=
  ⟨rfl, describe_column_normalization (Value.str "") (Value.int 0) Value.null
    (Value.str "") (Value.int 0) ⟨"", "", false, none, none⟩ rfl⟩

end MCP

